import Mathlib

/-!
Verification of the BANKNIFTY breakout-strategy trade-lifecycle engine.

Shallow embedding of the position state machine from
`src/breakout_strategy.py` (class `Enhanced5MinBreakoutStrategy`) and the
breakout monitors from `src/breakout_strategy_main.py`
(class `Breakout5MinStrategy`).

Conventions:
- Python floats are modelled as `ℚ`; Python ints as `ℤ` or `ℕ`.
- Times (`datetime`) are modelled as `ℚ` minutes on a common clock, so
  `(now - entry_time).total_seconds() / 60` becomes `now - entryTime`.
- `Optional[float]` becomes `Option ℚ`; a fallible order submission is an
  explicit `Bool` oracle (`True` = the broker accepted the order).
- Python `int(x)` (truncation toward zero) is `pyInt`.
-/

namespace Breakout

/-- Trade direction, the `direction` field of `TradeRecord`
(`'LONG'` or `'SHORT'` in the source). -/
inductive Direction where
  | LONG : Direction
  | SHORT : Direction
deriving DecidableEq, Repr

/-- One entry of `TradeRecord.partial_exits` (the dict appended in
`check_partial_exits`). -/
structure PartialExitRecord where
  time_minutes : ℚ
  exit_price : ℚ
  quantity : ℤ
  profit_pct : ℚ
deriving DecidableEq, Repr

/-- `TradeRecord` dataclass from `src/breakout_strategy.py`. -/
structure TradeRecord where
  symbol : String
  entryTime : ℚ
  entryPrice : ℚ
  quantity : ℤ
  direction : Direction
  stopLoss : ℚ
  target : ℚ
  exitTime : Option ℚ := none
  exitPrice : Option ℚ := none
  exitReason : String := ""
  pnl : ℚ := 0
  partialExits : List PartialExitRecord := []
deriving DecidableEq, Repr

/-- One rung of `config['trading']['partial_exits']['exits']`. -/
structure ExitConfig where
  time_minutes : ℚ
  min_profit_percentage : ℚ
  exit_percentage : ℚ
deriving DecidableEq, Repr

/-- `config['trading']['trailing_stop']`. -/
structure TrailingConfig where
  enabled : Bool
  activation_percentage : ℚ
  trailing_percentage : ℚ
deriving DecidableEq, Repr

/-- The slice of the YAML config consumed by the position monitor. -/
structure StrategyConfig where
  partialExitsEnabled : Bool
  partialExits : List ExitConfig
  trailing : TrailingConfig
  maxHoldingMinutes : ℚ
deriving DecidableEq, Repr

/-- Python `int(x)`: truncation toward zero. -/
def pyInt (x : ℚ) : ℤ :=
  if 0 ≤ x then ⌊x⌋ else ⌈x⌉

/-- `check_exit_conditions(trade, current_price)` from
`src/breakout_strategy.py`: stop-loss, then target, then time-based exit,
returning the reason string (`""` means no exit).  `now` stands for
`self.get_current_ist_time()` in minutes. -/
def checkExitConditions (cfg : StrategyConfig) (trade : TradeRecord)
    (current_price now : ℚ) : String :=
  if trade.direction = .LONG ∧ current_price ≤ trade.stopLoss then "STOP_LOSS"
  else if trade.direction = .SHORT ∧ current_price ≥ trade.stopLoss then "STOP_LOSS"
  else if trade.direction = .LONG ∧ current_price ≥ trade.target then "TARGET"
  else if trade.direction = .SHORT ∧ current_price ≤ trade.target then "TARGET"
  else if now - trade.entryTime ≥ cfg.maxHoldingMinutes then "TIME_EXIT"
  else ""

/-- Signed profit percentage `((price − entry)/entry)×100`, sign flipped
for shorts, as computed in `check_partial_exits` and
`update_trailing_stop`. -/
def profitPct (trade : TradeRecord) (current_price : ℚ) : ℚ :=
  if trade.direction = .LONG then
    ((current_price - trade.entryPrice) / trade.entryPrice) * 100
  else
    ((trade.entryPrice - current_price) / trade.entryPrice) * 100

/-- The body of the `for exit_config in ...exits` loop of
`check_partial_exits`: skip an already-executed rung (matched by
`time_minutes`), check the elapsed-time and minimum-profit gates, compute
`exit_qty = int(trade.quantity * exit_percentage / 100)` and, when the
exit order goes through (`execOk`), record the partial exit and reduce the
quantity. -/
def partialExitStep (execOk : ExitConfig → Bool) (current_price now : ℚ)
    (trade : TradeRecord) (rung : ExitConfig) : TradeRecord :=
  if trade.partialExits.any (fun pe => pe.time_minutes = rung.time_minutes) then
    trade
  else if now - trade.entryTime ≥ rung.time_minutes then
    let profit_pct := profitPct trade current_price
    if profit_pct ≥ rung.min_profit_percentage then
      let exit_qty := pyInt ((trade.quantity : ℚ) * rung.exit_percentage / 100)
      if execOk rung then
        { trade with
          partialExits := trade.partialExits ++
            [{ time_minutes := rung.time_minutes
               exit_price := current_price
               quantity := exit_qty
               profit_pct := profit_pct }]
          quantity := trade.quantity - exit_qty }
      else trade
    else trade
  else trade

/-- `check_partial_exits(trade, current_price)`: iterate the ladder. -/
def checkPartialExits (cfg : StrategyConfig) (execOk : ExitConfig → Bool)
    (trade : TradeRecord) (current_price now : ℚ) : TradeRecord :=
  if cfg.partialExitsEnabled then
    cfg.partialExits.foldl (partialExitStep execOk current_price now) trade
  else trade

/-- `update_trailing_stop(trade, current_price)`: once unrealized profit
reaches the activation fraction of the entry-to-target distance, propose
`price ∓ profit × trailingFraction` and adopt it only if it tightens the
current stop. -/
def updateTrailingStop (cfg : StrategyConfig) (trade : TradeRecord)
    (current_price : ℚ) : TradeRecord :=
  if ¬cfg.trailing.enabled then trade
  else
    let profit :=
      if trade.direction = .LONG then current_price - trade.entryPrice
      else trade.entryPrice - current_price
    let target_profit :=
      if trade.direction = .LONG then trade.target - trade.entryPrice
      else trade.entryPrice - trade.target
    let activation_profit := target_profit * (cfg.trailing.activation_percentage / 100)
    if profit ≥ activation_profit then
      let trailing_amount := profit * (cfg.trailing.trailing_percentage / 100)
      if trade.direction = .LONG then
        let new_stop := current_price - trailing_amount
        if new_stop > trade.stopLoss then { trade with stopLoss := new_stop } else trade
      else
        let new_stop := current_price + trailing_amount
        if new_stop < trade.stopLoss then { trade with stopLoss := new_stop } else trade
    else trade

/-- The success path of `exit_trade(index_name, exit_price, exit_reason)`:
P&L on the remaining quantity, plus the recorded partial-exit P&L, written
into the trade record together with exit time/price/reason. -/
def exitTrade (trade : TradeRecord) (exit_price : ℚ) (exit_reason : String)
    (now : ℚ) : TradeRecord :=
  let base :=
    if trade.direction = .LONG then (exit_price - trade.entryPrice) * (trade.quantity : ℚ)
    else (trade.entryPrice - exit_price) * (trade.quantity : ℚ)
  let pnl := trade.partialExits.foldl
    (fun acc pe =>
      acc + (if trade.direction = .LONG then
               (pe.exit_price - trade.entryPrice) * (pe.quantity : ℚ)
             else
               (trade.entryPrice - pe.exit_price) * (pe.quantity : ℚ)))
    base
  { trade with
    exitTime := some now
    exitPrice := some exit_price
    exitReason := exit_reason
    pnl := pnl }

/-- Inputs consumed by one iteration of the `monitor_trade` loop: the
polled price, the clock, and the broker's responses to any orders placed
on this tick (`execOk` for partial-exit orders, `exitOrderOk` for a full
exit order). -/
structure TickInput where
  price : ℚ
  now : ℚ
  execOk : ExitConfig → Bool
  exitOrderOk : Bool

/-- One pass of the `monitor_trade` loop body: evaluate
`check_exit_conditions` first; if a reason fires, return it with the trade
untouched (partial exits and trailing are not evaluated); otherwise run
`check_partial_exits` then `update_trailing_stop`. -/
def monitorTick (cfg : StrategyConfig) (trade : TradeRecord)
    (tick : TickInput) : String × TradeRecord :=
  let exit_reason := checkExitConditions cfg trade tick.price tick.now
  if exit_reason ≠ "" then (exit_reason, trade)
  else
    let t1 := checkPartialExits cfg tick.execOk trade tick.price tick.now
    let t2 := updateTrailingStop cfg t1 tick.price
    ("", t2)

/-- The state transformer of one tick (the second component of
`monitorTick`; when an exit reason fires the state is unchanged). -/
def stepState (cfg : StrategyConfig) (trade : TradeRecord)
    (tick : TickInput) : TradeRecord :=
  (monitorTick cfg trade tick).2

/-- Outcome of running the `monitor_trade` loop on a finite tick sequence. -/
inductive RunResult where
  /-- An exit condition fired and the exit order was accepted: the settled
  record is produced and the trade is removed from `active_trades`. -/
  | closed (settled : TradeRecord) : RunResult
  /-- An exit condition fired but the exit order was rejected: `exit_trade`
  left the record in `active_trades`, yet `monitor_trade` still executed
  its `break`, so the loop ended with the trade still registered. -/
  | stuck (trade : TradeRecord) : RunResult
  /-- The tick sequence was exhausted with the position still open. -/
  | running (trade : TradeRecord) : RunResult
deriving DecidableEq, Repr

/-- The `monitor_trade` loop of `src/breakout_strategy.py`: on each tick,
if `check_exit_conditions` fires, call `exit_trade` and `break`
(unconditionally — also when the exit order was rejected); otherwise apply
partial exits and the trailing-stop update and continue. -/
def monitorRun (cfg : StrategyConfig) (trade : TradeRecord) :
    List TickInput → RunResult
  | [] => .running trade
  | tick :: rest =>
    let r := monitorTick cfg trade tick
    if r.1 ≠ "" then
      if tick.exitOrderOk then
        .closed (exitTrade r.2 tick.price r.1 tick.now)
      else
        .stuck r.2
    else
      monitorRun cfg r.2 rest

/-- Sum of the quantities of the recorded partial exits of a trade. -/
def partialQtySum (trade : TradeRecord) : ℤ :=
  (trade.partialExits.map (fun pe => pe.quantity)).sum

/-- Direction sign used by the spec's P&L formula: +1 for long, −1 for
short. -/
def dirSign : Direction → ℚ
  | .LONG => 1
  | .SHORT => -1

/-- The spec's ExitSettlement formula, written from its words for the
refinement comparison with `exitTrade`: the sum over all partial-exit
fills of `(fillPrice − entryPrice) × fillQty` plus
`(finalExitPrice − entryPrice) × remainingQuantity`, both sign-adjusted
for direction. -/
def specRealizedPnl (trade : TradeRecord) (finalExitPrice : ℚ) : ℚ :=
  ((trade.partialExits.map
      (fun pe => dirSign trade.direction * (pe.exit_price - trade.entryPrice)
                   * (pe.quantity : ℚ))).sum)
  + dirSign trade.direction * (finalExitPrice - trade.entryPrice)
      * (trade.quantity : ℚ)

/-- The stop-loss condition of `check_exit_conditions`. -/
def stopLossHit (trade : TradeRecord) (current_price : ℚ) : Prop :=
  (trade.direction = .LONG ∧ current_price ≤ trade.stopLoss) ∨
  (trade.direction = .SHORT ∧ current_price ≥ trade.stopLoss)

/-- The target condition of `check_exit_conditions`. -/
def targetHit (trade : TradeRecord) (current_price : ℚ) : Prop :=
  (trade.direction = .LONG ∧ current_price ≥ trade.target) ∨
  (trade.direction = .SHORT ∧ current_price ≤ trade.target)

/-- The time-based exit condition of `check_exit_conditions`. -/
def timeExitDue (cfg : StrategyConfig) (trade : TradeRecord) (now : ℚ) : Prop :=
  now - trade.entryTime ≥ cfg.maxHoldingMinutes

/-- `check_momentum_confirmation(symbol)` from `src/breakout_strategy.py`.
`fetched` is the `close` column returned by `get_historical_data`
(`none` = the fetch raised, caught by the `except` which returns `True`).
With enough history it compares `tail(periods).iloc[-1] >
tail(periods).iloc[0]`; an empty window (`periods = 0`) raises an
`IndexError` inside the `try`, also caught and turned into `True`. -/
def check_momentum_confirmation (momentum_confirmation : Bool) (periods : ℕ)
    (fetched : Option (List ℚ)) : Bool :=
  if ¬momentum_confirmation then true
  else
    match fetched with
    | none => true
    | some closes =>
      if closes.length < periods then true
      else
        let recent := closes.drop (closes.length - periods)
        match recent.head?, recent.getLast? with
        | some first, some last => decide (last > first)
        | _, _ => true

/-- `premium_over_breakout = ((ltp − breakout_level) / breakout_level) × 100`
from `src/breakout_strategy_main.py`. -/
def premiumOverBreakout (ltp breakout_level : ℚ) : ℚ :=
  ((ltp - breakout_level) / breakout_level) * 100

/-- Per-tick, per-side entry decision of
`Breakout5MinStrategy.monitor_breakout`: requires `ltp ≥ breakout_level`,
then skips the tick when the premium over the trigger exceeds
`max_entry_premium_pct`. -/
def monitorBreakoutEnters (max_premium_pct breakout_level : ℚ)
    (ltp : Option ℚ) : Bool :=
  match ltp with
  | none => false
  | some p =>
    if p ≥ breakout_level then
      if premiumOverBreakout p breakout_level > max_premium_pct then false
      else true
    else false

/-- Per-tick, per-side entry decision of
`Breakout5MinStrategy.monitor_option_high_breakout`: identical except the
breach test is strict (`ltp > breakout_level`). -/
def optionHighEnters (max_premium_pct breakout_level : ℚ)
    (ltp : Option ℚ) : Bool :=
  match ltp with
  | none => false
  | some p =>
    if p > breakout_level then
      if premiumOverBreakout p breakout_level > max_premium_pct then false
      else true
    else false

/-- The `monitor_breakout` polling loop for one side, over a finite list
of polled prices: return the entry price of the first accepted tick, or
`none` when the monitoring window expires with no entry. -/
def monitorBreakoutLoop (max_premium_pct breakout_level : ℚ) :
    List (Option ℚ) → Option ℚ
  | [] => none
  | ltp :: rest =>
    if monitorBreakoutEnters max_premium_pct breakout_level ltp then ltp
    else monitorBreakoutLoop max_premium_pct breakout_level rest

/-- `BreakoutLevel` dataclass from `src/breakout_strategy.py`. -/
structure BreakoutLevelRec where
  symbol : String
  ce_symbol : String
  pe_symbol : String
  ce_breakout_level : ℚ
  pe_breakout_level : ℚ
  ce_closing_price : ℚ
  pe_closing_price : ℚ
  spot_price : ℚ
  calculated_time : ℚ
deriving DecidableEq, Repr

/-- Session-level mutable state read by `validate_entry_conditions` and
written by `enter_trade` (for one underlying: its `active_trades` slot,
`daily_trades_count`, `daily_pnl`). -/
structure SessionState where
  activeTrade : Option TradeRecord
  dailyTradesCount : ℕ
  dailyPnl : ℚ
deriving DecidableEq, Repr

/-- `validate_entry_conditions(symbol)`: deny on the daily trade ceiling,
then on the daily loss floor, then require the volume and momentum
confirmations. -/
def validateEntryConditions (max_daily_trades : ℕ) (max_daily_loss : ℚ)
    (st : SessionState) (volume_ok momentum_ok : Bool) : Bool :=
  if st.dailyTradesCount ≥ max_daily_trades then false
  else if st.dailyPnl ≤ max_daily_loss then false
  else volume_ok && momentum_ok

/-- The success path of `enter_trade`: build the `TradeRecord` (LONG, stop
= entry − stop points, target = entry + target points on the fixed-points
path), store it in the underlying's `active_trades` slot (overwriting any
previous record) and increment the daily trade count. -/
def enterTrade (symbol : String) (entry_price : ℚ) (qty : ℤ)
    (stop_loss_points target_points now : ℚ) (st : SessionState) :
    SessionState × TradeRecord :=
  let tr : TradeRecord :=
    { symbol := symbol
      entryTime := now
      entryPrice := entry_price
      quantity := qty
      direction := .LONG
      stopLoss := entry_price - stop_loss_points
      target := entry_price + target_points }
  ({ st with activeTrade := some tr, dailyTradesCount := st.dailyTradesCount + 1 }, tr)

/-- One pass of the `monitor_breakouts` loop body for one underlying: skip
when a position is already registered; otherwise check the CE side (Python
truthiness: a price of `None` or `0.0` is skipped) and enter on a
validated breach, then check the PE side the same way — without
re-checking the `active_trades` slot in between.  Returns the updated
state and the list of entries executed on this tick. -/
def monitorBreakoutsTick (max_daily_trades : ℕ) (max_daily_loss : ℚ)
    (stop_loss_points target_points : ℚ) (qty : ℤ) (lv : BreakoutLevelRec)
    (ce_price pe_price : Option ℚ) (ce_volume_ok ce_momentum_ok : Bool)
    (pe_volume_ok pe_momentum_ok : Bool) (now : ℚ) (st : SessionState) :
    SessionState × List TradeRecord :=
  if st.activeTrade.isSome then (st, [])
  else
    let afterCE : SessionState × List TradeRecord :=
      match ce_price with
      | some p =>
        if p ≠ 0 ∧ p ≥ lv.ce_breakout_level ∧
            validateEntryConditions max_daily_trades max_daily_loss st
              ce_volume_ok ce_momentum_ok then
          let r := enterTrade lv.ce_symbol p qty stop_loss_points target_points now st
          (r.1, [r.2])
        else (st, [])
      | none => (st, [])
    match pe_price with
    | some p =>
      if p ≠ 0 ∧ p ≥ lv.pe_breakout_level ∧
          validateEntryConditions max_daily_trades max_daily_loss afterCE.1
            pe_volume_ok pe_momentum_ok then
        let r := enterTrade lv.pe_symbol p qty stop_loss_points target_points now afterCE.1
        (r.1, afterCE.2 ++ [r.2])
      else afterCE
    | none => afterCE

/-- The body of the `cleanup` loop over `active_trades`: fetch the current
price; only when it is truthy (`some p` with `p ≠ 0`) attempt a final exit
with reason `"CLEANUP"`; an untruthy price — or a rejected exit order —
leaves the position registered and unsettled. -/
def cleanupStep (priceOf : String → Option ℚ) (exitOrderOk : Bool) (now : ℚ)
    (acc : List (String × TradeRecord) × List TradeRecord)
    (kv : String × TradeRecord) :
    List (String × TradeRecord) × List TradeRecord :=
  match priceOf kv.2.symbol with
  | some p =>
    if p ≠ 0 then
      if exitOrderOk then (acc.1, acc.2 ++ [exitTrade kv.2 p "CLEANUP" now])
      else (acc.1 ++ [kv], acc.2)
    else (acc.1 ++ [kv], acc.2)
  | none => (acc.1 ++ [kv], acc.2)

/-- `cleanup()` from `src/breakout_strategy.py`, restricted to its
position-closing loop: walk the registry of open positions, force-closing
each one whose price fetch is truthy.  Returns the positions left in the
registry and the settled records. -/
def cleanup (priceOf : String → Option ℚ) (exitOrderOk : Bool) (now : ℚ)
    (active : List (String × TradeRecord)) :
    List (String × TradeRecord) × List TradeRecord :=
  active.foldl (cleanupStep priceOf exitOrderOk now) ([], [])

/-- Truthiness of a fetched price in Python (`if current_price:`):
`None` and `0.0` are falsy. -/
def truthyPrice (o : Option ℚ) : Bool :=
  match o with
  | some p => decide (p ≠ 0)
  | none => false

/-! Concrete instances used by witnesses and counterexamples. -/

/-- A minimal configuration: no partial-exit ladder, trailing disabled,
60-minute holding cap. -/
def cfgPlain : StrategyConfig :=
  { partialExitsEnabled := false
    partialExits := []
    trailing := { enabled := false, activation_percentage := 50, trailing_percentage := 50 }
    maxHoldingMinutes := 60 }

/-- Configuration with one 15-minute / 5 %-profit / 50 %-quantity rung and
trailing enabled. -/
def cfgLadder : StrategyConfig :=
  { partialExitsEnabled := true
    partialExits := [{ time_minutes := 15, min_profit_percentage := 5, exit_percentage := 50 }]
    trailing := { enabled := true, activation_percentage := 50, trailing_percentage := 50 }
    maxHoldingMinutes := 60 }

/-- A fresh long position: entry 100 at time 0, 35 lots, stop 90,
target 110. -/
def tradeLong : TradeRecord :=
  { symbol := "NSE:BANKNIFTY-CE"
    entryTime := 0
    entryPrice := 100
    quantity := 35
    direction := .LONG
    stopLoss := 90
    target := 110 }

/-- A tick at price 89 (through the stop) whose exit order is rejected. -/
def tickReject : TickInput :=
  { price := 89, now := 1, execOk := fun _ => true, exitOrderOk := false }

/-- A tick at price 89 (through the stop) whose exit order is accepted. -/
def tickAccept : TickInput :=
  { price := 89, now := 2, execOk := fun _ => true, exitOrderOk := true }

/-- A benign tick: price 101 at minute 3, all orders accepted. -/
def tickQuiet : TickInput :=
  { price := 101, now := 3, execOk := fun _ => true, exitOrderOk := true }

/-- A profitable tick at minute 16: price 106, orders accepted. -/
def tickProfit : TickInput :=
  { price := 106, now := 16, execOk := fun _ => true, exitOrderOk := true }

/-- Breakout levels with both sides' triggers breachable on one tick. -/
def lvBoth : BreakoutLevelRec :=
  { symbol := "NSE:NIFTYBANK-INDEX"
    ce_symbol := "NSE:BANKNIFTY-CE"
    pe_symbol := "NSE:BANKNIFTY-PE"
    ce_breakout_level := 100
    pe_breakout_level := 80
    ce_closing_price := 95
    pe_closing_price := 75
    spot_price := 50000
    calculated_time := 0 }

/-- Session state with no open position and fresh daily counters. -/
def stFresh : SessionState :=
  { activeTrade := none, dailyTradesCount := 0, dailyPnl := 0 }

/-- A 10-lot long position at entry 100 (small enough that a 5 % rung
truncates to zero lots). -/
def tradeTen : TradeRecord :=
  { symbol := "NSE:BANKNIFTY-CE"
    entryTime := 0
    entryPrice := 100
    quantity := 10
    direction := .LONG
    stopLoss := 90
    target := 110 }

/-- A rung releasing 5 % of quantity after 5 minutes at ≥ 2 % profit. -/
def rungFive : ExitConfig :=
  { time_minutes := 5, min_profit_percentage := 2, exit_percentage := 5 }

/-- A price feed quoting 95 for the CE contract and nothing else. -/
def prOne : String → Option ℚ :=
  fun s => if s = "NSE:BANKNIFTY-CE" then some 95 else none

/-- The candidate trailing stop computed by `update_trailing_stop`:
`current_price ∓ profit × trailingFraction` (minus for long, plus for
short). -/
def candidateStop (cfg : StrategyConfig) (trade : TradeRecord)
    (current_price : ℚ) : ℚ :=
  if trade.direction = .LONG then
    current_price - (current_price - trade.entryPrice) * (cfg.trailing.trailing_percentage / 100)
  else
    current_price + (trade.entryPrice - current_price) * (cfg.trailing.trailing_percentage / 100)

/-- The candidate stop tightens (is more favourable than) the existing
stop: higher for a long position, lower for a short one. -/
def tightens (cfg : StrategyConfig) (trade : TradeRecord)
    (current_price : ℚ) : Prop :=
  (trade.direction = .LONG ∧ candidateStop cfg trade current_price > trade.stopLoss) ∨
  (trade.direction = .SHORT ∧ candidateStop cfg trade current_price < trade.stopLoss)

/-! Frame lemmas: which fields each operation leaves untouched. -/

lemma partialExitStep_direction (e : ExitConfig → Bool) (p n : ℚ)
    (t : TradeRecord) (r : ExitConfig) :
    (partialExitStep e p n t r).direction = t.direction := by
  unfold partialExitStep
  repeat' first | split | (dsimp only [])

lemma partialExitStep_stopLoss (e : ExitConfig → Bool) (p n : ℚ)
    (t : TradeRecord) (r : ExitConfig) :
    (partialExitStep e p n t r).stopLoss = t.stopLoss := by
  unfold partialExitStep
  repeat' first | split | (dsimp only [])

lemma partialExitStep_entryPrice (e : ExitConfig → Bool) (p n : ℚ)
    (t : TradeRecord) (r : ExitConfig) :
    (partialExitStep e p n t r).entryPrice = t.entryPrice := by
  unfold partialExitStep
  repeat' first | split | (dsimp only [])

lemma partialExitStep_entryTime (e : ExitConfig → Bool) (p n : ℚ)
    (t : TradeRecord) (r : ExitConfig) :
    (partialExitStep e p n t r).entryTime = t.entryTime := by
  unfold partialExitStep
  repeat' first | split | (dsimp only [])

lemma partialExitStep_target (e : ExitConfig → Bool) (p n : ℚ)
    (t : TradeRecord) (r : ExitConfig) :
    (partialExitStep e p n t r).target = t.target := by
  unfold partialExitStep
  repeat' first | split | (dsimp only [])

lemma checkPartialExits_stopLoss (cfg : StrategyConfig) (e : ExitConfig → Bool)
    (t : TradeRecord) (p n : ℚ) :
    (checkPartialExits cfg e t p n).stopLoss = t.stopLoss := by
  unfold checkPartialExits
  split
  · suffices h : ∀ (l : List ExitConfig) (t : TradeRecord),
        (l.foldl (partialExitStep e p n) t).stopLoss = t.stopLoss by
      exact h cfg.partialExits t
    intro l
    induction l with
    | nil => intro t; rfl
    | cons r rs ih =>
      intro t
      simpa [partialExitStep_stopLoss] using ih (partialExitStep e p n t r)
  · rfl

lemma checkPartialExits_direction (cfg : StrategyConfig) (e : ExitConfig → Bool)
    (t : TradeRecord) (p n : ℚ) :
    (checkPartialExits cfg e t p n).direction = t.direction := by
  unfold checkPartialExits
  split
  · suffices h : ∀ (l : List ExitConfig) (t : TradeRecord),
        (l.foldl (partialExitStep e p n) t).direction = t.direction by
      exact h cfg.partialExits t
    intro l
    induction l with
    | nil => intro t; rfl
    | cons r rs ih =>
      intro t
      simpa [partialExitStep_direction] using ih (partialExitStep e p n t r)
  · rfl

lemma updateTrailingStop_quantity (cfg : StrategyConfig) (t : TradeRecord) (p : ℚ) :
    (updateTrailingStop cfg t p).quantity = t.quantity := by
  unfold updateTrailingStop
  repeat' first | split | (dsimp only [])

lemma updateTrailingStop_partialExits (cfg : StrategyConfig) (t : TradeRecord) (p : ℚ) :
    (updateTrailingStop cfg t p).partialExits = t.partialExits := by
  unfold updateTrailingStop
  repeat' first | split | (dsimp only [])

lemma updateTrailingStop_direction (cfg : StrategyConfig) (t : TradeRecord) (p : ℚ) :
    (updateTrailingStop cfg t p).direction = t.direction := by
  unfold updateTrailingStop
  repeat' first | split | (dsimp only [])

/-- Folding `acc + f x` over a list is the base plus the mapped sum. -/
lemma foldl_add_eq (f : PartialExitRecord → ℚ) (b : ℚ) (l : List PartialExitRecord) :
    l.foldl (fun acc x => acc + f x) b = b + (l.map f).sum := by
  induction l generalizing b with
  | nil => simp
  | cons x xs ih => simp [ih, add_assoc]

lemma pyInt_of_nonneg (x : ℚ) (h : 0 ≤ x) : pyInt x = ⌊x⌋ := if_pos h

/-- `int(q × pct / 100)` stays between `0` and `q` when `q ≥ 0` and
`0 ≤ pct ≤ 100`. -/
lemma pyInt_pct_bounds (q : ℤ) (pct : ℚ) (hq : 0 ≤ q) (h0 : 0 ≤ pct)
    (h1 : pct ≤ 100) :
    0 ≤ pyInt ((q : ℚ) * pct / 100) ∧ pyInt ((q : ℚ) * pct / 100) ≤ q := by
  have hqQ : (0 : ℚ) ≤ (q : ℚ) := by exact_mod_cast hq
  have hx : (0 : ℚ) ≤ (q : ℚ) * pct / 100 := by positivity
  rw [pyInt_of_nonneg _ hx]
  refine ⟨Int.floor_nonneg.mpr hx, ?_⟩
  have hle : (q : ℚ) * pct / 100 ≤ (q : ℚ) := by
    rw [div_le_iff₀ (by norm_num : (0:ℚ) < 100)]
    nlinarith
  calc ⌊(q : ℚ) * pct / 100⌋ ≤ ⌊((q : ℤ) : ℚ)⌋ := Int.floor_le_floor hle
    _ = q := Int.floor_intCast q

lemma exitTrade_quantity (t : TradeRecord) (p : ℚ) (r : String) (n : ℚ) :
    (exitTrade t p r n).quantity = t.quantity := rfl

lemma exitTrade_partialExits (t : TradeRecord) (p : ℚ) (r : String) (n : ℚ) :
    (exitTrade t p r n).partialExits = t.partialExits := rfl

lemma exitTrade_exitReason (t : TradeRecord) (p : ℚ) (r : String) (n : ℚ) :
    (exitTrade t p r n).exitReason = r := rfl

/-- A partial-exit step conserves `quantity + partialQtySum` and keeps the
quantity nonnegative, for a rung with percentage in `[0, 100]`. -/
lemma partialExitStep_invariant (e : ExitConfig → Bool) (p n : ℚ)
    (t : TradeRecord) (r : ExitConfig) (hr0 : 0 ≤ r.exit_percentage)
    (hr1 : r.exit_percentage ≤ 100) (hq : 0 ≤ t.quantity) :
    0 ≤ (partialExitStep e p n t r).quantity ∧
    (partialExitStep e p n t r).quantity + partialQtySum (partialExitStep e p n t r) =
      t.quantity + partialQtySum t := by
  obtain ⟨hb0, hb1⟩ := pyInt_pct_bounds t.quantity r.exit_percentage hq hr0 hr1
  unfold partialExitStep
  repeat' first | split | (dsimp only [])
  all_goals refine ⟨?_, ?_⟩
  all_goals first
    | exact hq
    | rfl
    | omega
    | (simp only [partialQtySum, List.map_append, List.sum_append,
        List.map_cons, List.map_nil, List.sum_cons, List.sum_nil]
       omega)

lemma foldl_partialExitStep_invariant (e : ExitConfig → Bool) (p n : ℚ) :
    ∀ (l : List ExitConfig) (t : TradeRecord),
    (∀ r ∈ l, 0 ≤ r.exit_percentage ∧ r.exit_percentage ≤ 100) → 0 ≤ t.quantity →
    0 ≤ (l.foldl (partialExitStep e p n) t).quantity ∧
    (l.foldl (partialExitStep e p n) t).quantity +
        partialQtySum (l.foldl (partialExitStep e p n) t) =
      t.quantity + partialQtySum t := by
  intro l
  induction l with
  | nil => intro t _ hq; exact ⟨hq, rfl⟩
  | cons r rs ih =>
    intro t hall hq
    obtain ⟨h1, h2⟩ := partialExitStep_invariant e p n t r
      (hall r (by simp)).1 (hall r (by simp)).2 hq
    obtain ⟨g1, g2⟩ := ih (partialExitStep e p n t r)
      (fun x hx => hall x (by simp [hx])) h1
    refine ⟨by simpa using g1, ?_⟩
    simp only [List.foldl_cons]
    omega

lemma checkPartialExits_invariant (cfg : StrategyConfig) (e : ExitConfig → Bool)
    (t : TradeRecord) (p n : ℚ)
    (hall : ∀ r ∈ cfg.partialExits, 0 ≤ r.exit_percentage ∧ r.exit_percentage ≤ 100)
    (hq : 0 ≤ t.quantity) :
    0 ≤ (checkPartialExits cfg e t p n).quantity ∧
    (checkPartialExits cfg e t p n).quantity + partialQtySum (checkPartialExits cfg e t p n) =
      t.quantity + partialQtySum t := by
  unfold checkPartialExits
  split
  · exact foldl_partialExitStep_invariant e p n cfg.partialExits t hall hq
  · exact ⟨hq, rfl⟩

/-- The first component of a monitoring tick is exactly the value of
`check_exit_conditions` on that tick. -/
lemma monitorTick_fst (cfg : StrategyConfig) (t : TradeRecord) (tick : TickInput) :
    (monitorTick cfg t tick).1 = checkExitConditions cfg t tick.price tick.now := by
  unfold monitorTick
  dsimp only
  split
  · rfl
  · simp_all

/-- When an exit reason fires, the tick leaves the trade untouched. -/
lemma monitorTick_fired_snd (cfg : StrategyConfig) (t : TradeRecord) (tick : TickInput)
    (h : checkExitConditions cfg t tick.price tick.now ≠ "") :
    (monitorTick cfg t tick).2 = t := by
  unfold monitorTick
  simp [h]

lemma stepState_invariant (cfg : StrategyConfig) (t : TradeRecord) (tick : TickInput)
    (hall : ∀ r ∈ cfg.partialExits, 0 ≤ r.exit_percentage ∧ r.exit_percentage ≤ 100)
    (hq : 0 ≤ t.quantity) :
    0 ≤ (stepState cfg t tick).quantity ∧
    (stepState cfg t tick).quantity + partialQtySum (stepState cfg t tick) =
      t.quantity + partialQtySum t := by
  unfold stepState monitorTick
  dsimp only
  split
  · exact ⟨hq, rfl⟩
  · obtain ⟨g1, g2⟩ := checkPartialExits_invariant cfg tick.execOk t tick.price tick.now hall hq
    have e1 := updateTrailingStop_quantity cfg
      (checkPartialExits cfg tick.execOk t tick.price tick.now) tick.price
    have e2 := updateTrailingStop_partialExits cfg
      (checkPartialExits cfg tick.execOk t tick.price tick.now) tick.price
    have e3 : partialQtySum (updateTrailingStop cfg
        (checkPartialExits cfg tick.execOk t tick.price tick.now) tick.price) =
        partialQtySum (checkPartialExits cfg tick.execOk t tick.price tick.now) := by
      unfold partialQtySum
      rw [e2]
    dsimp only
    omega

/-- C4: for every closed Position, the total realized P&L recorded at
settlement equals the sum over all partial-exit fills of
`(fillPrice − entryPrice) × fillQuantity` plus
`(finalExitPrice − entryPrice) × remainingQuantity` for a long position,
with the price difference sign-flipped for a short position. -/
theorem exit_settlement_pnl_matches_spec (trade : TradeRecord)
    (exit_price : ℚ) (exit_reason : String) (now : ℚ) :
    (exitTrade trade exit_price exit_reason now).pnl =
      specRealizedPnl trade exit_price := by
  obtain ⟨sym, et, ep, q, dir, sl, tg, xt, xp, xr, pl, pes⟩ := trade
  unfold exitTrade specRealizedPnl
  cases dir
  all_goals simp only [dirSign]
  all_goals simp
  all_goals rw [foldl_add_eq]
  all_goals ring_nf
  all_goals exact add_comm _ _

/-- C10: a partial-exit rung that fires closes exactly
`int(currentQuantity × exitPercentage / 100)` (floor for nonnegative
operands); when `currentQuantity × exitPercentage < 100` the rung still
fires, records a zero-quantity partial exit, leaves the quantity
unchanged, and is permanently marked executed (any later evaluation of the
same rung is skipped). -/
theorem partial_exit_rung_truncation (execOk : ExitConfig → Bool)
    (current_price now : ℚ) (trade : TradeRecord) (rung : ExitConfig)
    (hnew : trade.partialExits.any (fun pe => pe.time_minutes = rung.time_minutes) = false)
    (htime : now - trade.entryTime ≥ rung.time_minutes)
    (hprofit : profitPct trade current_price ≥ rung.min_profit_percentage)
    (hok : execOk rung = true) :
    (partialExitStep execOk current_price now trade rung).partialExits =
      trade.partialExits ++
        [{ time_minutes := rung.time_minutes, exit_price := current_price,
           quantity := pyInt ((trade.quantity : ℚ) * rung.exit_percentage / 100),
           profit_pct := profitPct trade current_price }] ∧
    (partialExitStep execOk current_price now trade rung).quantity =
      trade.quantity - pyInt ((trade.quantity : ℚ) * rung.exit_percentage / 100) ∧
    (0 ≤ (trade.quantity : ℚ) * rung.exit_percentage / 100 →
      pyInt ((trade.quantity : ℚ) * rung.exit_percentage / 100) =
        ⌊(trade.quantity : ℚ) * rung.exit_percentage / 100⌋) ∧
    (0 ≤ trade.quantity → 0 ≤ rung.exit_percentage →
      (trade.quantity : ℚ) * rung.exit_percentage < 100 →
      pyInt ((trade.quantity : ℚ) * rung.exit_percentage / 100) = 0 ∧
      (partialExitStep execOk current_price now trade rung).quantity = trade.quantity) ∧
    (∀ (e2 : ExitConfig → Bool) (p2 n2 : ℚ),
      partialExitStep e2 p2 n2 (partialExitStep execOk current_price now trade rung) rung =
        partialExitStep execOk current_price now trade rung) := by
  have key : partialExitStep execOk current_price now trade rung =
      { trade with
        partialExits := trade.partialExits ++
          [{ time_minutes := rung.time_minutes, exit_price := current_price,
             quantity := pyInt ((trade.quantity : ℚ) * rung.exit_percentage / 100),
             profit_pct := profitPct trade current_price }]
        quantity := trade.quantity -
          pyInt ((trade.quantity : ℚ) * rung.exit_percentage / 100) } := by
    unfold partialExitStep
    rw [hnew]
    simp [htime, hprofit, hok]
  have hzero : 0 ≤ trade.quantity → 0 ≤ rung.exit_percentage →
      (trade.quantity : ℚ) * rung.exit_percentage < 100 →
      pyInt ((trade.quantity : ℚ) * rung.exit_percentage / 100) = 0 := by
    intro hq hp hlt
    have hqQ : (0 : ℚ) ≤ (trade.quantity : ℚ) := by exact_mod_cast hq
    have hx : (0 : ℚ) ≤ (trade.quantity : ℚ) * rung.exit_percentage / 100 := by positivity
    rw [pyInt_of_nonneg _ hx]
    have hlt1 : (trade.quantity : ℚ) * rung.exit_percentage / 100 < 1 := by
      rw [div_lt_one (by norm_num : (0:ℚ) < 100)]
      exact hlt
    exact Int.floor_eq_zero_iff.mpr ⟨hx, hlt1⟩
  refine ⟨by rw [key], by rw [key], fun hx => pyInt_of_nonneg _ hx,
    fun hq hp hlt => ⟨hzero hq hp hlt, by rw [key, hzero hq hp hlt]; simp⟩, ?_⟩
  intro e2 p2 n2
  rw [key]
  unfold partialExitStep
  rw [if_pos]
  simp [List.any_append]

/-- Witness for C10: a 10-lot long position at entry 100 with a
5-percent rung fires at price 106 on minute 16 and closes
`int(10 × 5 / 100) = 0` lots, leaving the quantity at 10. -/
theorem partial_exit_rung_truncation_witness :
    (tradeTen.partialExits.any (fun pe => pe.time_minutes = rungFive.time_minutes) = false ∧
      (16 : ℚ) - tradeTen.entryTime ≥ rungFive.time_minutes ∧
      profitPct tradeTen 106 ≥ rungFive.min_profit_percentage ∧
      (fun _ : ExitConfig => true) rungFive = true) ∧
    (partialExitStep (fun _ => true) 106 16 tradeTen rungFive).quantity = 10 := by
  have h := partial_exit_rung_truncation (fun _ => true) 106 16 tradeTen rungFive
    (by decide) (by norm_num [tradeTen, rungFive])
    (by norm_num [tradeTen, rungFive, profitPct]) rfl
  refine ⟨⟨by decide, by norm_num [tradeTen, rungFive],
    by norm_num [tradeTen, rungFive, profitPct], rfl⟩, ?_⟩
  have := (h.2.2.2.1 (by decide) (by norm_num [rungFive])
    (by norm_num [tradeTen, rungFive])).2
  simpa [tradeTen] using this

lemma drop_head?_getD (l : List ℚ) (n : ℕ) (h : n < l.length) :
    (l.drop n).head? = some (l.getD n 0) := by
  rw [List.head?_drop, List.getD_eq_getElem?_getD, List.getElem?_eq_getElem h]
  rfl

lemma drop_getLast?_eq (l : List ℚ) (n : ℕ) (h : n < l.length) :
    (l.drop n).getLast? = l.getLast? := by
  induction n generalizing l with
  | zero => simp
  | succ k ih =>
    cases l with
    | nil => simp at h
    | cons a as =>
      simp only [List.drop_succ_cons]
      rw [ih as (by simpa using h)]
      rcases as with _ | ⟨b, bs⟩
      · simp at h
      · simp [List.getLast?_cons_cons]

lemma drop_getLast?_getD (l : List ℚ) (n : ℕ) (h : n < l.length) :
    (l.drop n).getLast? = some (l.getD (l.length - 1) 0) := by
  rw [drop_getLast?_eq l n h, List.getLast?_eq_getElem?,
    List.getD_eq_getElem?_getD, List.getElem?_eq_getElem (by omega)]
  rfl

/-- C9: with the momentum filter enabled and at least `periods` closes of
history, the momentum confirmation passes exactly when the most recent
close is strictly greater than the close `periods` back (the first close
of the trailing `periods`-length window); with fewer than `periods`
closes, or a failed history fetch, it passes unconditionally (fails
open). -/
theorem momentum_confirmation_characterization (periods : ℕ) (closes : List ℚ) :
    (0 < periods → periods ≤ closes.length →
      (check_momentum_confirmation true periods (some closes) = true ↔
        closes.getD (closes.length - 1) 0 > closes.getD (closes.length - periods) 0)) ∧
    (closes.length < periods →
      check_momentum_confirmation true periods (some closes) = true) ∧
    (check_momentum_confirmation true periods none = true) := by
  refine ⟨?_, ?_, rfl⟩
  · intro hp hle
    have hlen0 : 0 < closes.length := lt_of_lt_of_le hp hle
    have hd : closes.length - periods < closes.length := by omega
    unfold check_momentum_confirmation
    rw [if_neg (by simp)]
    try dsimp only
    rw [if_neg (Nat.not_lt.mpr hle)]
    try dsimp only
    rw [drop_head?_getD closes (closes.length - periods) hd,
      drop_getLast?_getD closes (closes.length - periods) hd]
    simp
  · intro hlt
    unfold check_momentum_confirmation
    rw [if_neg (by simp)]
    try dsimp only
    rw [if_pos hlt]

/-- Witness for C9: with four closes `[100, 101, 99, 102]` and a
3-period window, the check compares `102 > 101` and passes; with only two
closes it passes by insufficient history; with a failed fetch it passes. -/
theorem momentum_confirmation_witness :
    (0 < 3 ∧ 3 ≤ ([100, 101, 99, 102] : List ℚ).length ∧
      check_momentum_confirmation true 3 (some [100, 101, 99, 102]) = true) ∧
    (([100, 101] : List ℚ).length < 3 ∧
      check_momentum_confirmation true 3 (some [100, 101]) = true) ∧
    check_momentum_confirmation true 3 none = true := by
  have h1 := momentum_confirmation_characterization 3 [100, 101, 99, 102]
  have h2 := momentum_confirmation_characterization 3 [100, 101]
  exact ⟨⟨by decide, by decide,
      (h1.1 (by decide) (by decide)).mpr (by norm_num)⟩,
    ⟨by decide, h2.2.1 (by decide)⟩, h1.2.2⟩

lemma updateTrailingStop_mono_long (cfg : StrategyConfig) (t : TradeRecord)
    (p : ℚ) (h : t.direction = .LONG) :
    t.stopLoss ≤ (updateTrailingStop cfg t p).stopLoss := by
  unfold updateTrailingStop
  repeat' first | split | (dsimp only [])
  all_goals simp_all
  all_goals linarith

lemma updateTrailingStop_mono_short (cfg : StrategyConfig) (t : TradeRecord)
    (p : ℚ) (h : t.direction = .SHORT) :
    (updateTrailingStop cfg t p).stopLoss ≤ t.stopLoss := by
  unfold updateTrailingStop
  repeat' first | split | (dsimp only [])
  all_goals simp_all
  all_goals linarith

lemma stepState_direction (cfg : StrategyConfig) (t : TradeRecord) (tick : TickInput) :
    (stepState cfg t tick).direction = t.direction := by
  unfold stepState monitorTick
  dsimp only
  split
  · rfl
  · rw [updateTrailingStop_direction, checkPartialExits_direction]

lemma stepState_stop_mono_long (cfg : StrategyConfig) (t : TradeRecord)
    (tick : TickInput) (h : t.direction = .LONG) :
    t.stopLoss ≤ (stepState cfg t tick).stopLoss := by
  unfold stepState monitorTick
  dsimp only
  split
  · exact le_refl _
  · have h1 : (checkPartialExits cfg tick.execOk t tick.price tick.now).direction =
        Direction.LONG := by
      rw [checkPartialExits_direction]
      exact h
    have h2 := updateTrailingStop_mono_long cfg
      (checkPartialExits cfg tick.execOk t tick.price tick.now) tick.price h1
    rw [checkPartialExits_stopLoss] at h2
    exact h2

lemma stepState_stop_mono_short (cfg : StrategyConfig) (t : TradeRecord)
    (tick : TickInput) (h : t.direction = .SHORT) :
    (stepState cfg t tick).stopLoss ≤ t.stopLoss := by
  unfold stepState monitorTick
  dsimp only
  split
  · exact le_refl _
  · have h1 : (checkPartialExits cfg tick.execOk t tick.price tick.now).direction =
        Direction.SHORT := by
      rw [checkPartialExits_direction]
      exact h
    have h2 := updateTrailingStop_mono_short cfg
      (checkPartialExits cfg tick.execOk t tick.price tick.now) tick.price h1
    rw [checkPartialExits_stopLoss] at h2
    exact h2

lemma scanl_head? (f : TradeRecord → TickInput → TradeRecord) (b : TradeRecord)
    (l : List TickInput) : (List.scanl f b l).head? = some b := by
  cases l <;> simp [List.scanl]

lemma chain'_scanl_stop_long (cfg : StrategyConfig) :
    ∀ (ticks : List TickInput) (t : TradeRecord), t.direction = .LONG →
    List.Chain' (fun a b => a.stopLoss ≤ b.stopLoss)
      (List.scanl (stepState cfg) t ticks) := by
  intro ticks
  induction ticks with
  | nil => intro t _; simp
  | cons x xs ih =>
    intro t h
    rw [List.scanl_cons, List.singleton_append, List.chain'_cons']
    refine ⟨?_, ih (stepState cfg t x) (by rw [stepState_direction]; exact h)⟩
    intro b hb
    rw [scanl_head?] at hb
    cases hb
    exact stepState_stop_mono_long cfg t x h

lemma chain'_scanl_stop_short (cfg : StrategyConfig) :
    ∀ (ticks : List TickInput) (t : TradeRecord), t.direction = .SHORT →
    List.Chain' (fun a b => b.stopLoss ≤ a.stopLoss)
      (List.scanl (stepState cfg) t ticks) := by
  intro ticks
  induction ticks with
  | nil => intro t _; simp
  | cons x xs ih =>
    intro t h
    rw [List.scanl_cons, List.singleton_append, List.chain'_cons']
    refine ⟨?_, ih (stepState cfg t x) (by rw [stepState_direction]; exact h)⟩
    intro b hb
    rw [scanl_head?] at hb
    cases hb
    exact stepState_stop_mono_short cfg t x h

lemma updateTrailingStop_adoption (cfg : StrategyConfig) (t : TradeRecord) (p : ℚ) :
    updateTrailingStop cfg t p = t ∨
    (tightens cfg t p ∧
      updateTrailingStop cfg t p = { t with stopLoss := candidateStop cfg t p }) := by
  by_cases hen : cfg.trailing.enabled
  case neg =>
    left
    unfold updateTrailingStop
    simp [hen]
  cases hd : t.direction
  · by_cases hact : p - t.entryPrice ≥
        (t.target - t.entryPrice) * (cfg.trailing.activation_percentage / 100)
    case neg =>
      left
      unfold updateTrailingStop
      simp [hen, hd, hact]
    by_cases hadopt :
        p - (p - t.entryPrice) * (cfg.trailing.trailing_percentage / 100) > t.stopLoss
    · right
      constructor
      · exact Or.inl ⟨hd, by unfold candidateStop; rw [if_pos hd]; exact hadopt⟩
      · unfold updateTrailingStop candidateStop
        simp [hen, hd, hact, hadopt]
    · left
      unfold updateTrailingStop
      simp [hen, hd, hact, hadopt]
  · by_cases hact : t.entryPrice - p ≥
        (t.entryPrice - t.target) * (cfg.trailing.activation_percentage / 100)
    case neg =>
      left
      unfold updateTrailingStop
      simp [hen, hd, hact]
    by_cases hadopt :
        p + (t.entryPrice - p) * (cfg.trailing.trailing_percentage / 100) < t.stopLoss
    · right
      constructor
      · refine Or.inr ⟨hd, ?_⟩
        unfold candidateStop
        rw [if_neg (by rw [hd]; exact fun hc => Direction.noConfusion hc)]
        exact hadopt
      · unfold updateTrailingStop candidateStop
        simp [hen, hd, hact, hadopt]
    · left
      unfold updateTrailingStop
      simp [hen, hd, hact, hadopt]

/-- C2: over successive monitoring ticks a position's stop-loss sequence
is monotonically non-worsening — non-decreasing for a long position,
non-increasing for a short one — and the trailing-stop update either
leaves the trade unchanged or adopts exactly the candidate stop, and only
when that candidate tightens the existing stop. -/
theorem trailing_stop_never_untightens (cfg : StrategyConfig)
    (t0 : TradeRecord) (ticks : List TickInput) :
    (t0.direction = .LONG →
      List.Chain' (fun a b => a.stopLoss ≤ b.stopLoss)
        (List.scanl (stepState cfg) t0 ticks)) ∧
    (t0.direction = .SHORT →
      List.Chain' (fun a b => b.stopLoss ≤ a.stopLoss)
        (List.scanl (stepState cfg) t0 ticks)) ∧
    (∀ (t : TradeRecord) (p : ℚ),
      updateTrailingStop cfg t p = t ∨
      (tightens cfg t p ∧
        updateTrailingStop cfg t p = { t with stopLoss := candidateStop cfg t p })) :=
  ⟨chain'_scanl_stop_long cfg ticks t0, chain'_scanl_stop_short cfg ticks t0,
    updateTrailingStop_adoption cfg⟩

/-- Witness for C2: the long trade at entry 100 is monitored through a
quiet tick and a profitable tick; the stop-loss sequence is
non-decreasing. -/
theorem trailing_stop_never_untightens_witness :
    tradeLong.direction = .LONG ∧
    List.Chain' (fun a b => a.stopLoss ≤ b.stopLoss)
      (List.scanl (stepState cfgLadder) tradeLong [tickQuiet, tickProfit]) :=
  ⟨rfl, (trailing_stop_never_untightens cfgLadder tradeLong [tickQuiet, tickProfit]).1 rfl⟩

/-- Unfolding of one step of the `monitor_trade` loop. -/
lemma monitorRun_cons (cfg : StrategyConfig) (t : TradeRecord) (x : TickInput)
    (xs : List TickInput) :
    monitorRun cfg t (x :: xs) =
      if (monitorTick cfg t x).1 ≠ "" then
        if x.exitOrderOk then
          RunResult.closed (exitTrade (monitorTick cfg t x).2 x.price
            (monitorTick cfg t x).1 x.now)
        else RunResult.stuck (monitorTick cfg t x).2
      else monitorRun cfg (monitorTick cfg t x).2 xs := rfl

/-- C3: on every monitoring tick the stop-loss, target and time conditions
are evaluated in that order before anything else; when one of them fires
the tick returns that single reason with the position state untouched —
the partial-exit ladder and the trailing-stop update are not evaluated —
and the loop closes the position with that reason (or breaks with the
trade still registered if the exit order is rejected). -/
theorem exit_checks_priority (cfg : StrategyConfig) (t : TradeRecord)
    (tick : TickInput) :
    (checkExitConditions cfg t tick.price tick.now ≠ "" →
      monitorTick cfg t tick = (checkExitConditions cfg t tick.price tick.now, t) ∧
      (∀ rest : List TickInput, monitorRun cfg t (tick :: rest) =
        if tick.exitOrderOk then
          RunResult.closed (exitTrade t tick.price
            (checkExitConditions cfg t tick.price tick.now) tick.now)
        else RunResult.stuck t)) ∧
    (stopLossHit t tick.price →
      checkExitConditions cfg t tick.price tick.now = "STOP_LOSS") ∧
    (¬stopLossHit t tick.price → targetHit t tick.price →
      checkExitConditions cfg t tick.price tick.now = "TARGET") ∧
    (¬stopLossHit t tick.price → ¬targetHit t tick.price →
      timeExitDue cfg t tick.now →
      checkExitConditions cfg t tick.price tick.now = "TIME_EXIT") ∧
    (¬stopLossHit t tick.price → ¬targetHit t tick.price →
      ¬timeExitDue cfg t tick.now →
      checkExitConditions cfg t tick.price tick.now = "") := by
  refine ⟨?_, ?_, ?_, ?_, ?_⟩
  · intro h
    have hmt : monitorTick cfg t tick =
        (checkExitConditions cfg t tick.price tick.now, t) := by
      unfold monitorTick
      dsimp only
      rw [if_pos h]
    refine ⟨hmt, fun rest => ?_⟩
    rw [monitorRun_cons, hmt]
    rw [if_pos h]
  · intro hs
    unfold checkExitConditions
    rcases hs with ⟨hdir, hle⟩ | ⟨hdir, hge⟩
    · rw [if_pos ⟨hdir, hle⟩]
    · rw [if_neg, if_pos ⟨hdir, hge⟩]
      rintro ⟨h1, -⟩
      rw [hdir] at h1
      exact Direction.noConfusion h1
  · intro hns ht
    unfold checkExitConditions
    rw [if_neg (fun hc => hns (Or.inl hc)), if_neg (fun hc => hns (Or.inr hc))]
    rcases ht with ⟨hdir, hge⟩ | ⟨hdir, hle⟩
    · rw [if_pos ⟨hdir, hge⟩]
    · rw [if_neg, if_pos ⟨hdir, hle⟩]
      rintro ⟨h1, -⟩
      rw [hdir] at h1
      exact Direction.noConfusion h1
  · intro hns hnt hd
    unfold timeExitDue at hd
    unfold checkExitConditions
    rw [if_neg (fun hc => hns (Or.inl hc)), if_neg (fun hc => hns (Or.inr hc)),
      if_neg (fun hc => hnt (Or.inl hc)), if_neg (fun hc => hnt (Or.inr hc)),
      if_pos hd]
  · intro hns hnt hnd
    unfold timeExitDue at hnd
    unfold checkExitConditions
    rw [if_neg (fun hc => hns (Or.inl hc)), if_neg (fun hc => hns (Or.inr hc)),
      if_neg (fun hc => hnt (Or.inl hc)), if_neg (fun hc => hnt (Or.inr hc)),
      if_neg hnd]

/-- Witness for C3: at price 89 the stop of the long trade at stop 90
fires, and the tick returns the reason with the trade untouched. -/
theorem exit_checks_priority_witness :
    checkExitConditions cfgPlain tradeLong tickReject.price tickReject.now ≠ "" ∧
    monitorTick cfgPlain tradeLong tickReject =
      (checkExitConditions cfgPlain tradeLong tickReject.price tickReject.now,
        tradeLong) :=
  ⟨by decide, ((exit_checks_priority cfgPlain tradeLong tickReject).1 (by decide)).1⟩

lemma scanl_qty_invariant (cfg : StrategyConfig)
    (hall : ∀ r ∈ cfg.partialExits, 0 ≤ r.exit_percentage ∧ r.exit_percentage ≤ 100) :
    ∀ (ticks : List TickInput) (t : TradeRecord), 0 ≤ t.quantity →
    ∀ s ∈ List.scanl (stepState cfg) t ticks,
      0 ≤ s.quantity ∧ s.quantity + partialQtySum s = t.quantity + partialQtySum t := by
  intro ticks
  induction ticks with
  | nil =>
    intro t hq s hs
    simp only [List.scanl, List.mem_singleton] at hs
    subst hs
    exact ⟨hq, rfl⟩
  | cons x xs ih =>
    intro t hq s hs
    rw [List.scanl_cons, List.singleton_append] at hs
    rcases List.mem_cons.mp hs with h | h
    · subst h
      exact ⟨hq, rfl⟩
    · obtain ⟨g1, g2⟩ := stepState_invariant cfg t x hall hq
      obtain ⟨k1, k2⟩ := ih (stepState cfg t x) g1 s h
      exact ⟨k1, by omega⟩

lemma monitorRun_closed_qty (cfg : StrategyConfig)
    (hall : ∀ r ∈ cfg.partialExits, 0 ≤ r.exit_percentage ∧ r.exit_percentage ≤ 100) :
    ∀ (ticks : List TickInput) (t settled : TradeRecord), 0 ≤ t.quantity →
    monitorRun cfg t ticks = .closed settled →
    0 ≤ settled.quantity ∧
      settled.quantity + partialQtySum settled = t.quantity + partialQtySum t := by
  intro ticks
  induction ticks with
  | nil =>
    intro t s hq h
    simp [monitorRun] at h
  | cons x xs ih =>
    intro t s hq h
    rw [monitorRun_cons] at h
    by_cases hr : (monitorTick cfg t x).1 ≠ ""
    · rw [if_pos hr] at h
      have hck : checkExitConditions cfg t x.price x.now ≠ "" := by
        rw [monitorTick_fst] at hr
        exact hr
      have ht2 : (monitorTick cfg t x).2 = t := monitorTick_fired_snd cfg t x hck
      by_cases ho : x.exitOrderOk
      · rw [if_pos ho] at h
        have hs : s = exitTrade (monitorTick cfg t x).2 x.price
            (monitorTick cfg t x).1 x.now := by
          cases h
          rfl
        rw [hs, ht2]
        refine ⟨?_, ?_⟩
        · rw [exitTrade_quantity]
          exact hq
        · have e1 : partialQtySum (exitTrade t x.price (monitorTick cfg t x).1 x.now) =
              partialQtySum t := by
            unfold partialQtySum
            rw [exitTrade_partialExits]
          rw [exitTrade_quantity, e1]
      · rw [if_neg ho] at h
        exact absurd h (by simp)
    · rw [if_neg hr] at h
      have g := stepState_invariant cfg t x hall hq
      obtain ⟨k1, k2⟩ := ih (stepState cfg t x) s g.1 h
      exact ⟨k1, by omega⟩

/-- C1: starting from a fresh position with nonnegative quantity, under a
ladder whose exit percentages lie in `[0, 100]`, the current quantity
never becomes negative at any point of the monitoring trace, and the sum
of all recorded partial-exit quantities plus the quantity closed at the
final exit (the remaining quantity of the settled record) equals the
original entry quantity. -/
theorem position_quantity_conservation (cfg : StrategyConfig)
    (ticks : List TickInput) (t0 : TradeRecord) (hq : 0 ≤ t0.quantity)
    (hfresh : t0.partialExits = [])
    (hall : ∀ r ∈ cfg.partialExits, 0 ≤ r.exit_percentage ∧ r.exit_percentage ≤ 100) :
    (∀ s ∈ List.scanl (stepState cfg) t0 ticks,
      0 ≤ s.quantity ∧ partialQtySum s + s.quantity = t0.quantity) ∧
    (∀ settled : TradeRecord, monitorRun cfg t0 ticks = .closed settled →
      0 ≤ settled.quantity ∧ partialQtySum settled + settled.quantity = t0.quantity) := by
  have h0 : partialQtySum t0 = 0 := by simp [partialQtySum, hfresh]
  constructor
  · intro s hs
    obtain ⟨k1, k2⟩ := scanl_qty_invariant cfg hall ticks t0 hq s hs
    exact ⟨k1, by omega⟩
  · intro s h
    obtain ⟨k1, k2⟩ := monitorRun_closed_qty cfg hall ticks t0 s hq h
    exact ⟨k1, by omega⟩

/-- Witness for C1: a 35-lot long trade goes through a profitable tick
(the 50 % rung fires, closing 17 lots) and is then stopped out; every
state keeps a nonnegative quantity summing with the recorded partial
exits to 35. -/
theorem position_quantity_conservation_witness :
    (0 ≤ tradeLong.quantity ∧ tradeLong.partialExits = [] ∧
      (∀ r ∈ cfgLadder.partialExits, 0 ≤ r.exit_percentage ∧ r.exit_percentage ≤ 100)) ∧
    (∀ s ∈ List.scanl (stepState cfgLadder) tradeLong [tickProfit, tickAccept],
      0 ≤ s.quantity ∧ partialQtySum s + s.quantity = tradeLong.quantity) ∧
    (∀ settled : TradeRecord,
      monitorRun cfgLadder tradeLong [tickProfit, tickAccept] = .closed settled →
      0 ≤ settled.quantity ∧ partialQtySum settled + settled.quantity = tradeLong.quantity) := by
  have h := position_quantity_conservation cfgLadder [tickProfit, tickAccept]
    tradeLong (by decide) rfl (by decide)
  exact ⟨⟨by decide, rfl, by decide⟩, h.1, h.2⟩

/-- C6 (counterexample): when the stop fires on a tick whose exit order
is rejected, `monitor_trade` breaks out of its loop anyway — the run ends
`stuck` and the accepting tick that follows is never processed, although
on its own that tick would have closed the position. -/
theorem exit_rejection_no_retry_cex :
    monitorRun cfgPlain tradeLong [tickReject, tickAccept] =
      RunResult.stuck tradeLong ∧
    monitorRun cfgPlain tradeLong [tickAccept] =
      RunResult.closed (exitTrade tradeLong tickAccept.price "STOP_LOSS"
        tickAccept.now) := by
  constructor
  · decide
  · have hmt : monitorTick cfgPlain tradeLong tickAccept = ("STOP_LOSS", tradeLong) := by
      decide
    rw [monitorRun_cons, hmt]
    simp [tickAccept]

/-- C6 (amended): if the exit order submitted when a stop/target/time
condition fires is rejected, the Position is left in its current state —
not marked closed and still in the active-position registry — but the
monitoring loop executes its `break` anyway: monitoring ends on that tick
and the exit is not re-attempted on later ticks. -/
theorem exit_rejection_leaves_position_stuck (cfg : StrategyConfig)
    (t : TradeRecord) (tick : TickInput) (rest : List TickInput)
    (hfire : checkExitConditions cfg t tick.price tick.now ≠ "")
    (hrej : tick.exitOrderOk = false) :
    monitorRun cfg t (tick :: rest) = RunResult.stuck t := by
  have h1 : (monitorTick cfg t tick).1 ≠ "" := by
    rw [monitorTick_fst]
    exact hfire
  rw [monitorRun_cons, if_pos h1, hrej]
  rw [if_neg (by simp)]
  rw [monitorTick_fired_snd cfg t tick hfire]

/-- Witness for C6 (amended): the rejected stop-loss exit at price 89
leaves the long trade stuck; later ticks are never consulted. -/
theorem exit_rejection_leaves_position_stuck_witness :
    (checkExitConditions cfgPlain tradeLong tickReject.price tickReject.now ≠ "" ∧
      tickReject.exitOrderOk = false) ∧
    monitorRun cfgPlain tradeLong [tickReject, tickAccept] =
      RunResult.stuck tradeLong :=
  ⟨⟨by decide, rfl⟩,
    exit_rejection_leaves_position_stuck cfgPlain tradeLong tickReject
      [tickAccept] (by decide) rfl⟩

/-- C5 (counterexample): `monitor_option_high_breakout` tests the breach
strictly (`ltp > breakout_level`), so a polled price exactly at the
trigger — premium 0, well under any maximum — does not enter, contradicting
the claim that every price ≥ trigger with admissible premium enters. -/
theorem premium_gate_strict_trigger_cex :
    optionHighEnters 5 100 (some 100) = false ∧
    (100 : ℚ) ≥ 100 ∧ premiumOverBreakout 100 100 ≤ 5 := by
  refine ⟨by decide, by norm_num, ?_⟩
  norm_num [premiumOverBreakout]

/-- C5 (amended): in `monitor_breakout` a polled price at or above the
trigger enters exactly when the premium over the trigger does not exceed
the configured maximum; in `monitor_option_high_breakout` the same holds
but only for prices strictly above the trigger (a price exactly at the
trigger never enters); a tick whose premium exceeds the maximum is
skipped and the polling loop keeps monitoring instead of terminating. -/
theorem premium_gate_characterization (max_premium_pct breakout_level p : ℚ)
    (rest : List (Option ℚ)) :
    (p ≥ breakout_level →
      (monitorBreakoutEnters max_premium_pct breakout_level (some p) = true ↔
        premiumOverBreakout p breakout_level ≤ max_premium_pct)) ∧
    (p > breakout_level →
      (optionHighEnters max_premium_pct breakout_level (some p) = true ↔
        premiumOverBreakout p breakout_level ≤ max_premium_pct)) ∧
    (p ≥ breakout_level →
      premiumOverBreakout p breakout_level > max_premium_pct →
      monitorBreakoutLoop max_premium_pct breakout_level (some p :: rest) =
        monitorBreakoutLoop max_premium_pct breakout_level rest) := by
  refine ⟨?_, ?_, ?_⟩
  · intro hge
    unfold monitorBreakoutEnters
    dsimp only
    rw [if_pos hge]
    by_cases hpr : premiumOverBreakout p breakout_level > max_premium_pct
    · rw [if_pos hpr]
      simpa using not_le.mpr hpr
    · rw [if_neg hpr]
      simpa using not_lt.mp hpr
  · intro hgt
    unfold optionHighEnters
    dsimp only
    rw [if_pos hgt]
    by_cases hpr : premiumOverBreakout p breakout_level > max_premium_pct
    · rw [if_pos hpr]
      simpa using not_le.mpr hpr
    · rw [if_neg hpr]
      simpa using not_lt.mp hpr
  · intro hge hpr
    have he : monitorBreakoutEnters max_premium_pct breakout_level (some p) = false := by
      unfold monitorBreakoutEnters
      dsimp only
      rw [if_pos hge, if_pos hpr]
    rw [monitorBreakoutLoop, he]
    simp

/-- Witness for C5 (amended): price 104 over trigger 100 carries a 4 %
premium, inside the 5 % cap, so `monitor_breakout` enters; price 108
carries an 8 % premium and the tick is skipped, the loop continuing. -/
theorem premium_gate_characterization_witness :
    ((104 : ℚ) ≥ 100 ∧
      (monitorBreakoutEnters 5 100 (some 104) = true ↔
        premiumOverBreakout 104 100 ≤ 5)) ∧
    ((108 : ℚ) ≥ 100 ∧ premiumOverBreakout 108 100 > 5 ∧
      monitorBreakoutLoop 5 100 [some 108, some 104] =
        monitorBreakoutLoop 5 100 [some 104]) :=
  ⟨⟨by norm_num, (premium_gate_characterization 5 100 104 []).1 (by norm_num)⟩,
    ⟨by norm_num, by norm_num [premiumOverBreakout],
      (premium_gate_characterization 5 100 108 [some 104]).2.2 (by norm_num)
        (by norm_num [premiumOverBreakout])⟩⟩

/-- C7 (code bug evaluation): on a tick where both the CE and the PE side
breach their triggers with all validations passing, `monitor_breakouts`
executes two entries — the PE trade record overwriting the CE record in
the `active_trades` slot — because the registry is not re-checked between
the CE and PE branches. -/
theorem monitor_breakouts_double_entry :
    ((monitorBreakoutsTick 10 (-5000) 20 40 35 lvBoth (some 100) (some 80)
        true true true true 0 stFresh).2.map (fun tr => tr.symbol)) =
      [lvBoth.ce_symbol, lvBoth.pe_symbol] ∧
    ((monitorBreakoutsTick 10 (-5000) 20 40 35 lvBoth (some 100) (some 80)
        true true true true 0 stFresh).1.activeTrade.map (fun tr => tr.symbol)) =
      some lvBoth.pe_symbol ∧
    (monitorBreakoutsTick 10 (-5000) 20 40 35 lvBoth (some 100) (some 80)
        true true true true 0 stFresh).1.dailyTradesCount = 2 := by
  refine ⟨?_, ?_, ?_⟩ <;> decide

/-- C8 (counterexample): `cleanup` skips any open position whose price
fetch returns no price — the position stays in the registry with no
settlement record, contradicting the claim that no open Position is
abandoned, including on a failed price fetch. -/
theorem cleanup_abandons_unpriced_position_cex :
    cleanup (fun _ => none) true 0 [("banknifty", tradeLong)] =
      ([("banknifty", tradeLong)], []) := by
  decide

lemma cleanup_acc_characterization (priceOf : String → Option ℚ) (now : ℚ) :
    ∀ (active : List (String × TradeRecord))
      (acc : List (String × TradeRecord) × List TradeRecord),
    active.foldl (cleanupStep priceOf true now) acc =
      (acc.1 ++ (active.filter fun kv => ! truthyPrice (priceOf kv.2.symbol)),
       acc.2 ++ ((active.filter fun kv => truthyPrice (priceOf kv.2.symbol)).map
         fun kv => exitTrade kv.2 ((priceOf kv.2.symbol).getD 0) "CLEANUP" now)) := by
  intro active
  induction active with
  | nil => intro acc; simp
  | cons kv rest ih =>
    intro acc
    rw [List.foldl_cons, ih]
    cases hp : priceOf kv.2.symbol with
    | none =>
      unfold cleanupStep
      rw [hp]
      simp [List.filter_cons, truthyPrice, hp]
    | some p =>
      by_cases hz : p = 0
      · unfold cleanupStep
        rw [hp]
        simp [List.filter_cons, truthyPrice, hp, hz]
      · unfold cleanupStep
        rw [hp]
        simp [List.filter_cons, truthyPrice, hp, hz]

/-- C8 (amended): with exit orders accepted, `cleanup` force-closes, with
terminal reason CLEANUP at the fetched price, exactly the open positions
whose price fetch is truthy (`some p` with `p ≠ 0`), handing each to
settlement; a position whose price fetch returns no price is skipped and
left in the registry without a settlement record. -/
theorem cleanup_settles_only_priced_positions (priceOf : String → Option ℚ)
    (now : ℚ) (active : List (String × TradeRecord)) :
    (cleanup priceOf true now active =
      (active.filter fun kv => ! truthyPrice (priceOf kv.2.symbol),
       (active.filter fun kv => truthyPrice (priceOf kv.2.symbol)).map
         fun kv => exitTrade kv.2 ((priceOf kv.2.symbol).getD 0) "CLEANUP" now)) ∧
    (∀ kv ∈ active, ∀ p : ℚ, priceOf kv.2.symbol = some p → p ≠ 0 →
      exitTrade kv.2 p "CLEANUP" now ∈ (cleanup priceOf true now active).2 ∧
      (exitTrade kv.2 p "CLEANUP" now).exitReason = "CLEANUP") ∧
    (∀ kv ∈ active, priceOf kv.2.symbol = none →
      kv ∈ (cleanup priceOf true now active).1) := by
  have hc := cleanup_acc_characterization priceOf now active ([], [])
  refine ⟨?_, ?_, ?_⟩
  · unfold cleanup
    rw [hc]
    simp
  · intro kv hkv p hp hz
    refine ⟨?_, rfl⟩
    unfold cleanup
    rw [hc]
    simp only [List.nil_append]
    have hmem : kv ∈ active.filter (fun kv => truthyPrice (priceOf kv.2.symbol)) :=
      List.mem_filter.mpr ⟨hkv, by rw [hp]; simp [truthyPrice, hz]⟩
    have hmap := List.mem_map_of_mem
      (fun kv : String × TradeRecord =>
        exitTrade kv.2 ((priceOf kv.2.symbol).getD 0) "CLEANUP" now) hmem
    simpa [hp] using hmap
  · intro kv hkv hp
    unfold cleanup
    rw [hc]
    simp only [List.nil_append]
    exact List.mem_filter.mpr ⟨hkv, by rw [hp]; rfl⟩

/-- Witness for C8 (amended): under a feed quoting 95 for the CE contract
only, cleanup settles the CE position at 95 with reason CLEANUP. -/
theorem cleanup_settles_only_priced_positions_witness :
    (("ce", tradeLong) ∈ [("ce", tradeLong)] ∧
      prOne ("ce", tradeLong).2.symbol = some 95 ∧ (95 : ℚ) ≠ 0) ∧
    (exitTrade tradeLong 95 "CLEANUP" 30 ∈
        (cleanup prOne true 30 [("ce", tradeLong)]).2 ∧
      (exitTrade tradeLong 95 "CLEANUP" 30).exitReason = "CLEANUP") :=
  ⟨⟨by decide, by decide, by norm_num⟩,
    (cleanup_settles_only_priced_positions prOne 30 [("ce", tradeLong)]).2.1
      ("ce", tradeLong) (by decide) 95 (by decide) (by norm_num)⟩

end Breakout
